import Mathlib

/-!
Verification development for the Ehipay backend (src/backend.js).

The durable store is modelled as explicit state (`DB`): each `await query`
in the handlers is one primitive operation on `DB`, committing
independently (the handlers open no database transaction).  The remote
Stripe client and webhook signature verification are injected as function
parameters, as they are opaque external collaborators.

`db.js` and the SQL schema are not part of the sources; the uniqueness
constraints the handlers' `ON CONFLICT` clauses and plain `INSERT`s rely
on, and the ledger-store contract, are modelled from the spec (each such
definition carries a `Modelled from the spec:` doc comment).
-/

namespace Ehipay

/-- Row of the `accounts` table. -/
structure Account where
  id : String
  name : String
  type : String
deriving DecidableEq, Repr

/-- Row of the `transactions` table (double-entry ledger posting). -/
structure Txn where
  debit_account : String
  credit_account : String
  amount_cents : Int
  currency : String
  external_ref : String
deriving DecidableEq, Repr

/-- Row of the `payment_intents` table (mirror of the remote resource). -/
structure PaymentIntentRow where
  provider : String
  provider_id : String
  amount_cents : Int
  currency : String
  status : String
deriving DecidableEq, Repr

/-- The response payload of id, client_secret and status produced by the
payment-intents handler (also the shape returned by the remote create call). -/
structure Response where
  id : String
  client_secret : String
  status : String
deriving DecidableEq, Repr

/-- Row of the `idempotency_keys` table. -/
structure IdemRow where
  key : String
  endpoint : String
  response_json : Response
deriving DecidableEq, Repr

/-- Row of the `webhook_events` table (processed-event record). -/
structure WebhookEventRow where
  event_id : String
  type : String
  payload_hash : String
deriving DecidableEq, Repr

/-- The durable store: the five tables of the persisted state layout.
Rows are kept in insertion order; multiplicity is significant (it counts
posted transactions). -/
structure DB where
  accounts : List Account
  transactions : List Txn
  paymentIntents : List PaymentIntentRow
  idempotencyKeys : List IdemRow
  webhookEvents : List WebhookEventRow
deriving DecidableEq, Repr

def emptyDB : DB := ⟨[], [], [], [], []⟩

/-- Errors surfaced by store primitives and handlers. -/
inductive Err
  | invalidSignature
  | conflict
  | invalidAmount
  | unknownAccount
deriving DecidableEq, Repr

/-- `SELECT 1 FROM webhook_events WHERE event_id=$1` has a row. -/
def webhookEventExists (eid : String) (db : DB) : Bool :=
  db.webhookEvents.any (fun r => r.event_id == eid)

/-- Modelled from the spec: `webhook_events` is unique on event id (§6);
the schema itself is not under src/.  A plain `INSERT INTO webhook_events`
therefore fails when the event id is already recorded. -/
def insertWebhookEvent (eid ty hash : String) (db : DB) : Except Err DB :=
  if webhookEventExists eid db then .error .conflict
  else .ok { db with webhookEvents := db.webhookEvents ++ [⟨eid, ty, hash⟩] }

/-- `INSERT INTO payment_intents ... ON CONFLICT (provider_id) DO UPDATE SET
status='succeeded'` (webhook handler, lines 35-40). -/
def upsertPaymentIntentSucceeded (pid : String) (amount : Int) (cur : String)
    (db : DB) : DB :=
  if db.paymentIntents.any (fun r => r.provider_id == pid) then
    { db with paymentIntents := (db.paymentIntents.map
        (fun r => if r.provider_id == pid then { r with status := "succeeded" } else r)) }
  else
    { db with paymentIntents :=
        db.paymentIntents ++ [⟨"stripe", pid, amount, cur, "succeeded"⟩] }

/-- `SELECT id FROM accounts WHERE type='platform_escrow' LIMIT 1`. -/
def selectEscrowId (db : DB) : Option String :=
  (db.accounts.find? (fun a => a.type == "platform_escrow")).map (fun a => a.id)

def accountExists (id : String) (db : DB) : Bool :=
  db.accounts.any (fun a => a.id == id)

/-- `INSERT INTO accounts ... ON CONFLICT DO NOTHING` (create-if-absent,
keyed on the primary key `id`). -/
def insertAccountIfAbsent (id name ty : String) (db : DB) : DB :=
  if accountExists id db then db
  else { db with accounts := db.accounts ++ [⟨id, name, ty⟩] }

/-- Modelled from the spec: the Ledger Store contract §4.1
(`post_transaction` fails with `InvalidAmount` if amount ≤ 0 and with
`UnknownAccount` if either account is absent); the schema enforcing this
for the `transactions` table is not under src/. -/
def post_transaction (debit credit : String) (amount : Int) (cur ref : String)
    (db : DB) : Except Err DB :=
  if amount ≤ 0 then .error .invalidAmount
  else if accountExists debit db && accountExists credit db then
    .ok { db with transactions := db.transactions ++ [⟨debit, credit, amount, cur, ref⟩] }
  else .error .unknownAccount

/-- `SELECT response_json FROM idempotency_keys WHERE key=$1 AND endpoint=$2`. -/
def lookupIdem (k ep : String) (db : DB) : Option Response :=
  (db.idempotencyKeys.find? (fun r => r.key == k && r.endpoint == ep)).map
    (fun r => r.response_json)

/-- Modelled from the spec: `idempotency_keys` is unique on key+operation
(§6); the schema is not under src/.  The handler's store is a plain
`INSERT INTO idempotency_keys` (lines 107-110), so it fails whenever the
pair is already present, whatever the stored payload is. -/
def insertIdemKey (k ep : String) (r : Response) (db : DB) : Except Err DB :=
  if db.idempotencyKeys.any (fun row => row.key == k && row.endpoint == ep) then
    .error .conflict
  else .ok { db with idempotencyKeys := db.idempotencyKeys ++ [⟨k, ep, r⟩] }

/-- `INSERT INTO payment_intents ... ON CONFLICT (provider_id) DO NOTHING`
(payment-intents handler, lines 99-104). -/
def insertPIIfAbsent (pid : String) (amount : Int) (cur status : String)
    (db : DB) : DB :=
  if db.paymentIntents.any (fun r => r.provider_id == pid) then db
  else { db with paymentIntents :=
      db.paymentIntents ++ [⟨"stripe", pid, amount, cur, status⟩] }

/-! ## POST /v1/payment_intents -/

/-- Request to the payment-intents handler.  `amount_cents = none` stands
for an absent or non-integer JSON value (the code checks
`Number.isInteger`); `idemKey` is the `Idempotency-Key` header. -/
structure CIRequest where
  idemKey : Option String
  amount_cents : Option Int
  currency : String
deriving DecidableEq, Repr

/-- Outcome of the payment-intents handler: 400 on validation failure,
`res.json(response)` on success, 500 from the catch-all. -/
inductive CIResult
  | missingKey
  | invalidAmount
  | ok (r : Response)
  | serverError
deriving DecidableEq, Repr

def endpointPI : String := "/v1/payment_intents"

/-- The POST /v1/payment_intents handler (lines 73-117).  `stripeCreate`
is the remote processor's create call (`none` = the remote call threw);
the returned `Nat` counts remote invocations made by this request. -/
def createIntent (stripeCreate : Int → String → String → Option Response)
    (req : CIRequest) (db : DB) : CIResult × DB × Nat :=
  match req.idemKey with
  | none => (.missingKey, db, 0)
  | some k =>
    match req.amount_cents with
    | none => (.invalidAmount, db, 0)
    | some a =>
      if a ≤ 0 then (.invalidAmount, db, 0)
      else
        match lookupIdem k endpointPI db with
        | some r => (.ok r, db, 0)
        | none =>
          match stripeCreate a req.currency k with
          | none => (.serverError, db, 1)
          | some pi =>
            let db1 := insertPIIfAbsent pi.id a req.currency pi.status db
            let resp : Response := ⟨pi.id, pi.client_secret, pi.status⟩
            match insertIdemKey k endpointPI resp db1 with
            | .error _ => (.serverError, db1, 1)
            | .ok db2 => (.ok resp, db2, 1)

/-! ## POST /v1/webhooks/stripe -/

/-- The `event.data.object` of a `payment_intent.succeeded` event (the
Stripe payment intent carried by the webhook payload). -/
structure PIObj where
  id : String
  amount_received : Int
  currency : String
  customer : Option String
deriving DecidableEq, Repr

/-- A verified webhook event as produced by `stripe.webhooks.constructEvent`. -/
structure Event where
  id : String
  type : String
  data : PIObj
deriving DecidableEq, Repr

/-- The webhook handler's acknowledgement body: lines 29 and 59 return
ok=true with deduped true resp. absent (modelled as false). -/
structure Ack where
  ok : Bool
  deduped : Bool
deriving DecidableEq, Repr

/-- Run a list of store operations in order, threading the store.  Each
operation is one independently committed `await query`; on the first
failure the run stops, keeping every effect already committed (the JS
`catch` does not roll anything back). -/
def runSteps : List (DB → Except Err DB) → DB → Except Err Unit × DB
  | [], db => (.ok (), db)
  | f :: fs, db =>
    match f db with
    | .error e => (.error e, db)
    | .ok db' => runSteps fs db'

/-- The store state after only the first `k` operations committed (the
process died before the rest ran). -/
def runPrefix (k : Nat) (fs : List (DB → Except Err DB)) (db : DB) : DB :=
  (runSteps (fs.take k) db).2

/-- The transaction insert of the succeeded branch (lines 42 and 46-50):
resolve the escrow account (the code reads `escrow[0].id`, which throws
when no escrow row exists — the error case here) and insert the ledger
row debiting the minted customer account and crediting escrow. -/
def txnStep (pi : PIObj) (freshId : String) (db : DB) : Except Err DB :=
  match selectEscrowId db with
  | none => .error .unknownAccount
  | some escrowId =>
    post_transaction freshId escrowId pi.amount_received pi.currency pi.id db

/-- The store operations of the `payment_intent.succeeded` branch
(lines 32-50), in source order: upsert the mirror row, insert a freshly
minted customer account, insert the ledger transaction.  `freshId` is the
`crypto.randomUUID()` result.  The escrow lookup (line 42) is evaluated at
the transaction step; this reads the same value as at line 42 because the
intervening insert only adds an account of type customer. -/
def succeededSteps (pi : PIObj) (freshId : String) : List (DB → Except Err DB) :=
  [ fun db => .ok (upsertPaymentIntentSucceeded pi.id pi.amount_received pi.currency db)
  , fun db => .ok (insertAccountIfAbsent freshId
      ("Customer " ++ pi.customer.getD "anon") "customer" db)
  , txnStep pi freshId ]

/-- All store operations a first-seen event triggers: the dispatch on
`event.type` (only `payment_intent.succeeded` has effects; every other
type falls through), then the processed-event record (lines 55-58). -/
def eventSteps (ev : Event) (freshId payloadHash : String) :
    List (DB → Except Err DB) :=
  (if ev.type == "payment_intent.succeeded" then succeededSteps ev.data freshId else [])
    ++ [insertWebhookEvent ev.id ev.type payloadHash]

/-- The POST /v1/webhooks/stripe handler (lines 21-64).  `verify` is
`stripe.webhooks.constructEvent` (`none` = it threw `InvalidSignature`),
`sha256` the payload digest, `freshId` the minted customer account id. -/
def ingest (verify : String → String → Option Event) (sha256 : String → String)
    (freshId : String) (payload sig : String) (db : DB) : Except Err Ack × DB :=
  match verify payload sig with
  | none => (.error .invalidSignature, db)
  | some ev =>
    if webhookEventExists ev.id db then (.ok ⟨true, true⟩, db)
    else
      match runSteps (eventSteps ev freshId (sha256 payload)) db with
      | (.ok _, db') => (.ok ⟨true, false⟩, db')
      | (.error e, db') => (.error e, db')

/-- The durable state left by a webhook delivery whose process crashed
after `k` of its store operations committed.  The handler wraps its
queries in no database transaction, so each prefix of commits is a
reachable at-rest state. -/
def ingestCrash (verify : String → String → Option Event) (sha256 : String → String)
    (freshId : String) (payload sig : String) (k : Nat) (db : DB) : DB :=
  match verify payload sig with
  | none => db
  | some ev =>
    if webhookEventExists ev.id db then db
    else runPrefix k (eventSteps ev freshId (sha256 payload)) db

/-- Status of the mirror row for a given processor-assigned id. -/
def piStatus (pid : String) (db : DB) : Option String :=
  (db.paymentIntents.find? (fun r => r.provider_id == pid)).map (fun r => r.status)

/-! ## Ledger invariant over reachable store states -/

/-- A transaction is well formed with respect to a store state: positive
amount and both referenced accounts present. -/
def txnValid (db : DB) (t : Txn) : Prop :=
  0 < t.amount_cents ∧ accountExists t.debit_account db = true ∧
    accountExists t.credit_account db = true

/-- Every transaction at rest is well formed. -/
def LedgerInvariant (db : DB) : Prop := ∀ t ∈ db.transactions, txnValid db t

/-- Accounts only ever accumulate between the two states. -/
def accountsMono (db db' : DB) : Prop :=
  ∀ id, accountExists id db = true → accountExists id db' = true

/-- A store operation preserves the account set and the ledger invariant
whenever it commits. -/
def Pres (f : DB → Except Err DB) : Prop :=
  ∀ db db', f db = .ok db' →
    accountsMono db db' ∧ (LedgerInvariant db → LedgerInvariant db')

/-- The at-rest store states the system can produce: the empty store,
account provisioning, any run of either handler, and any crashed prefix
of a webhook run (each query commits independently). -/
inductive Reachable : DB → Prop
  | empty : Reachable emptyDB
  | ensure (id name ty : String) (db : DB) :
      Reachable db → Reachable (insertAccountIfAbsent id name ty db)
  | intent (f : Int → String → String → Option Response) (req : CIRequest) (db : DB) :
      Reachable db → Reachable (createIntent f req db).2.1
  | webhook (verify : String → String → Option Event) (sha256 : String → String)
      (freshId payload sig : String) (db : DB) :
      Reachable db → Reachable (ingest verify sha256 freshId payload sig db).2
  | crash (verify : String → String → Option Event) (sha256 : String → String)
      (freshId payload sig : String) (k : Nat) (db : DB) :
      Reachable db → Reachable (ingestCrash verify sha256 freshId payload sig k db)

/-! ## Concrete data for witnesses and counterexamples -/

/-- Example verified payment_intent.succeeded event: evt_1 reports pi_X
receiving 2500 usd. -/
def evX : Event := ⟨"evt_1", "payment_intent.succeeded", ⟨"pi_X", 2500, "usd", none⟩⟩

/-- Verifier accepting every payload as evX. -/
def verifyX : String → String → Option Event := fun _ _ => some evX

/-- Verifier rejecting every payload (signature mismatch). -/
def verifyNone : String → String → Option Event := fun _ _ => none

/-- Digest function for concrete runs. -/
def hashId : String → String := fun s => s

/-- Store seeded with a platform-escrow account. -/
def dbEscrow : DB := ⟨[⟨"acct_escrow", "Escrow", "platform_escrow"⟩], [], [], [], []⟩

/-- Store in which evt_1 is already recorded as processed. -/
def dbProcessed : DB := ⟨[], [], [], [], [⟨"evt_1", "payment_intent.succeeded", "h"⟩]⟩

/-- Example stored response. -/
def respA : Response := ⟨"pi_X", "secret_X", "requires_action"⟩

/-- Store holding respA under key k1 for the payment-intents endpoint. -/
def dbStoredA : DB := ⟨[], [], [], [⟨"k1", endpointPI, respA⟩], []⟩

/-- Remote processor that answers every create call with respA. -/
def stripeOk : Int → String → String → Option Response := fun _ _ _ => some respA

/-- Remote processor whose create call always fails. -/
def stripeFail : Int → String → String → Option Response := fun _ _ _ => none

/-! ## Helper lemmas -/

theorem accountsMono_refl (db : DB) : accountsMono db db := fun _ h => h

theorem accountsMono_trans {db1 db2 db3 : DB} (h1 : accountsMono db1 db2)
    (h2 : accountsMono db2 db3) : accountsMono db1 db3 :=
  fun id h => h2 id (h1 id h)

theorem accountsMono_of_eq {db db' : DB} (h : db'.accounts = db.accounts) :
    accountsMono db db' := by
  intro id hid
  unfold accountExists at hid ⊢
  rw [h]
  exact hid

theorem txnValid_mono {db db' : DB} (hm : accountsMono db db') {t : Txn}
    (h : txnValid db t) : txnValid db' t :=
  ⟨h.1, hm _ h.2.1, hm _ h.2.2⟩

theorem invariant_mono {db db' : DB} (hm : accountsMono db db')
    (ht : db'.transactions = db.transactions) (h : LedgerInvariant db) :
    LedgerInvariant db' := by
  intro t htmem
  rw [ht] at htmem
  exact txnValid_mono hm (h t htmem)

theorem upsertPI_accounts (pid : String) (a : Int) (c : String) (db : DB) :
    (upsertPaymentIntentSucceeded pid a c db).accounts = db.accounts := by
  unfold upsertPaymentIntentSucceeded
  split <;> rfl

theorem upsertPI_transactions (pid : String) (a : Int) (c : String) (db : DB) :
    (upsertPaymentIntentSucceeded pid a c db).transactions = db.transactions := by
  unfold upsertPaymentIntentSucceeded
  split <;> rfl

theorem insertAccount_transactions (id name ty : String) (db : DB) :
    (insertAccountIfAbsent id name ty db).transactions = db.transactions := by
  unfold insertAccountIfAbsent
  split <;> rfl

theorem insertAccount_mono (id name ty : String) (db : DB) :
    accountsMono db (insertAccountIfAbsent id name ty db) := by
  intro x hx
  unfold insertAccountIfAbsent
  split
  · exact hx
  · unfold accountExists at hx ⊢
    simp only [List.any_append, hx, Bool.true_or]

theorem post_transaction_ok {d c : String} {a : Int} {cur ref : String} {db db' : DB}
    (h : post_transaction d c a cur ref db = .ok db') :
    db'.accounts = db.accounts ∧
    db'.transactions = db.transactions ++ [⟨d, c, a, cur, ref⟩] ∧
    0 < a ∧ accountExists d db = true ∧ accountExists c db = true := by
  unfold post_transaction at h
  split at h
  · exact Except.noConfusion h
  · split at h
    · rename_i hle hacc
      injection h with h
      subst h
      refine ⟨rfl, rfl, by omega, ?_, ?_⟩
      · exact (Bool.and_eq_true _ _ |>.mp hacc).1
      · exact (Bool.and_eq_true _ _ |>.mp hacc).2
    · exact Except.noConfusion h

theorem insertWebhookEvent_ok {eid ty hash : String} {db db' : DB}
    (h : insertWebhookEvent eid ty hash db = .ok db') :
    db'.accounts = db.accounts ∧ db'.transactions = db.transactions := by
  unfold insertWebhookEvent at h
  split at h
  · exact Except.noConfusion h
  · injection h with h
    subst h
    exact ⟨rfl, rfl⟩

theorem eventSteps_pres (ev : Event) (freshId payloadHash : String) :
    ∀ f ∈ eventSteps ev freshId payloadHash, Pres f := by
  intro f hf
  unfold eventSteps succeededSteps at hf
  split at hf <;> simp only [List.mem_append, List.mem_cons, List.mem_singleton,
    List.not_mem_nil, false_or, or_false, List.nil_append] at hf
  · rcases hf with (h1 | h2 | h3) | h4
    · subst h1
      intro db db' h
      injection h with h
      subst h
      exact ⟨accountsMono_of_eq (upsertPI_accounts _ _ _ db),
        invariant_mono (accountsMono_of_eq (upsertPI_accounts _ _ _ db))
          (upsertPI_transactions _ _ _ db)⟩
    · subst h2
      intro db db' h
      injection h with h
      subst h
      exact ⟨insertAccount_mono _ _ _ db,
        invariant_mono (insertAccount_mono _ _ _ db)
          (insertAccount_transactions _ _ _ db)⟩
    · subst h3
      intro db db' h
      unfold txnStep at h
      cases hesc : selectEscrowId db with
      | none =>
        rw [hesc] at h
        exact Except.noConfusion h
      | some escrowId =>
        rw [hesc] at h
        obtain ⟨hacc, htx, hpos, hd, hc⟩ := post_transaction_ok h
        refine ⟨accountsMono_of_eq hacc, fun hinv t htmem => ?_⟩
        rw [htx] at htmem
        rcases List.mem_append.mp htmem with hold | hnew
        · exact txnValid_mono (accountsMono_of_eq hacc) (hinv t hold)
        · rcases List.mem_singleton.mp hnew with rfl
          refine ⟨hpos, ?_, ?_⟩
          · unfold accountExists at hd ⊢
            rw [hacc]
            exact hd
          · unfold accountExists at hc ⊢
            rw [hacc]
            exact hc
    · subst h4
      intro db db' h
      obtain ⟨hacc, htx⟩ := insertWebhookEvent_ok h
      exact ⟨accountsMono_of_eq hacc, invariant_mono (accountsMono_of_eq hacc) htx⟩
  · subst hf
    intro db db' h
    obtain ⟨hacc, htx⟩ := insertWebhookEvent_ok h
    exact ⟨accountsMono_of_eq hacc, invariant_mono (accountsMono_of_eq hacc) htx⟩

theorem runSteps_pres (fs : List (DB → Except Err DB))
    (hp : ∀ f ∈ fs, Pres f) (db : DB) :
    accountsMono db (runSteps fs db).2 ∧
    (LedgerInvariant db → LedgerInvariant (runSteps fs db).2) := by
  induction fs generalizing db with
  | nil => exact ⟨accountsMono_refl db, fun h => h⟩
  | cons f fs ih =>
    have hf : Pres f := hp f (List.mem_cons_self f fs)
    have hfs : ∀ g ∈ fs, Pres g := fun g hg => hp g (List.mem_cons_of_mem f hg)
    unfold runSteps
    cases hres : f db with
    | error e => exact ⟨accountsMono_refl db, fun h => h⟩
    | ok db' =>
      have h1 := hf db db' hres
      have h2 := ih hfs db'
      exact ⟨accountsMono_trans h1.1 h2.1, fun h => h2.2 (h1.2 h)⟩

theorem insertPIIfAbsent_accounts (pid : String) (a : Int) (cur st : String) (db : DB) :
    (insertPIIfAbsent pid a cur st db).accounts = db.accounts := by
  unfold insertPIIfAbsent
  split <;> rfl

theorem insertPIIfAbsent_transactions (pid : String) (a : Int) (cur st : String) (db : DB) :
    (insertPIIfAbsent pid a cur st db).transactions = db.transactions := by
  unfold insertPIIfAbsent
  split <;> rfl

theorem insertIdemKey_ok_frame {k ep : String} {r : Response} {db db' : DB}
    (h : insertIdemKey k ep r db = .ok db') :
    db'.accounts = db.accounts ∧ db'.transactions = db.transactions := by
  unfold insertIdemKey at h
  split at h
  · exact Except.noConfusion h
  · injection h with h
    subst h
    exact ⟨rfl, rfl⟩

theorem createIntent_frame (f : Int → String → String → Option Response)
    (req : CIRequest) (db : DB) :
    ((createIntent f req db).2.1).accounts = db.accounts ∧
    ((createIntent f req db).2.1).transactions = db.transactions := by
  unfold createIntent
  repeat' split
  all_goals
    first
    | exact ⟨rfl, rfl⟩
    | (dsimp only
       split
       · exact ⟨insertPIIfAbsent_accounts _ _ _ _ db,
           insertPIIfAbsent_transactions _ _ _ _ db⟩
       · rename_i db2 hok
         obtain ⟨ha, ht⟩ := insertIdemKey_ok_frame hok
         rw [ha, ht]
         exact ⟨insertPIIfAbsent_accounts _ _ _ _ db,
           insertPIIfAbsent_transactions _ _ _ _ db⟩)

theorem ingest_db_cases (verify : String → String → Option Event)
    (sha256 : String → String) (freshId payload sig : String) (db : DB) :
    (ingest verify sha256 freshId payload sig db).2 = db ∨
    ∃ ev, (ingest verify sha256 freshId payload sig db).2 =
      (runSteps (eventSteps ev freshId (sha256 payload)) db).2 := by
  unfold ingest
  cases verify payload sig with
  | none => exact Or.inl rfl
  | some ev =>
    cases hw : webhookEventExists ev.id db with
    | true => simp [hw]
    | false =>
      refine Or.inr ⟨ev, ?_⟩
      simp only [hw, Bool.false_eq_true, if_false]
      cases hr : runSteps (eventSteps ev freshId (sha256 payload)) db with
      | mk res db' => cases res <;> simp

theorem ingestCrash_cases (verify : String → String → Option Event)
    (sha256 : String → String) (freshId payload sig : String) (k : Nat) (db : DB) :
    ingestCrash verify sha256 freshId payload sig k db = db ∨
    ∃ ev, ingestCrash verify sha256 freshId payload sig k db =
      (runSteps ((eventSteps ev freshId (sha256 payload)).take k) db).2 := by
  unfold ingestCrash runPrefix
  cases verify payload sig with
  | none => exact Or.inl rfl
  | some ev =>
    cases hw : webhookEventExists ev.id db with
    | true => simp [hw]
    | false =>
      refine Or.inr ⟨ev, ?_⟩
      simp [hw]

theorem reachable_invariant : ∀ db, Reachable db → LedgerInvariant db := by
  intro db h
  induction h with
  | empty =>
    intro t ht
    simp [emptyDB] at ht
  | ensure id name ty db _ ih =>
    exact invariant_mono (insertAccount_mono id name ty db)
      (insertAccount_transactions id name ty db) ih
  | intent f req db _ ih =>
    obtain ⟨ha, ht⟩ := createIntent_frame f req db
    exact invariant_mono (accountsMono_of_eq ha) ht ih
  | webhook v s fid p g db _ ih =>
    rcases ingest_db_cases v s fid p g db with heq | ⟨ev, heq⟩
    · rw [heq]
      exact ih
    · rw [heq]
      exact (runSteps_pres _ (eventSteps_pres ev fid (s p)) db).2 ih
  | crash v s fid p g k db _ ih =>
    rcases ingestCrash_cases v s fid p g k db with heq | ⟨ev, heq⟩
    · rw [heq]
      exact ih
    · rw [heq]
      refine (runSteps_pres _ ?_ db).2 ih
      intro f hf
      exact eventSteps_pres ev fid (s p) f (List.take_subset k _ hf)

theorem insertIdemKey_ok_shape {k ep : String} {r : Response} {db db' : DB}
    (h : insertIdemKey k ep r db = .ok db') :
    db' = { db with idempotencyKeys := db.idempotencyKeys ++ [⟨k, ep, r⟩] } ∧
    db.idempotencyKeys.any (fun row => row.key == k && row.endpoint == ep) = false := by
  unfold insertIdemKey at h
  split at h
  · exact Except.noConfusion h
  · rename_i hne
    injection h with h
    exact ⟨h.symm, by simpa using hne⟩

theorem insertIdemKey_ok_lookup {k ep : String} {r : Response} {db db' : DB}
    (h : insertIdemKey k ep r db = .ok db') : lookupIdem k ep db' = some r := by
  obtain ⟨hshape, hnone⟩ := insertIdemKey_ok_shape h
  subst hshape
  unfold lookupIdem
  have hfind : db.idempotencyKeys.find? (fun row => row.key == k && row.endpoint == ep)
      = none := by
    rw [List.find?_eq_none]
    intro x hx hpx
    have : db.idempotencyKeys.any (fun row => row.key == k && row.endpoint == ep) = true :=
      List.any_eq_true.mpr ⟨x, hx, hpx⟩
    rw [hnone] at this
    exact Bool.noConfusion this
  simp [List.find?_append, hfind]

theorem lookup_some_any {k ep : String} {db : DB} {r : Response}
    (h : lookupIdem k ep db = some r) :
    db.idempotencyKeys.any (fun row => row.key == k && row.endpoint == ep) = true := by
  unfold lookupIdem at h
  cases hf : db.idempotencyKeys.find? (fun row => row.key == k && row.endpoint == ep) with
  | none =>
    rw [hf] at h
    exact Option.noConfusion h
  | some row =>
    have hmem := List.mem_of_find?_eq_some hf
    have hp := List.find?_some hf
    exact List.any_eq_true.mpr ⟨row, hmem, hp⟩

theorem insertPIIfAbsent_length (pid : String) (a : Int) (cur st : String) (db : DB) :
    (insertPIIfAbsent pid a cur st db).paymentIntents.length ≤
      db.paymentIntents.length + 1 := by
  unfold insertPIIfAbsent
  split
  · omega
  · simp

theorem createIntent_hit (f : Int → String → String → Option Response)
    (k : String) (a : Int) (cur : String) (db : DB) (r : Response)
    (hpos : 0 < a) (hhit : lookupIdem k endpointPI db = some r) :
    createIntent f ⟨some k, some a, cur⟩ db = (.ok r, db, 0) := by
  unfold createIntent
  dsimp only
  rw [if_neg (by omega : ¬ a ≤ 0), hhit]

theorem createIntent_miss_fail (f : Int → String → String → Option Response)
    (k : String) (a : Int) (cur : String) (db : DB) (hpos : 0 < a)
    (hmiss : lookupIdem k endpointPI db = none) (hfail : f a cur k = none) :
    createIntent f ⟨some k, some a, cur⟩ db = (.serverError, db, 1) := by
  unfold createIntent
  dsimp only
  rw [if_neg (by omega : ¬ a ≤ 0), hmiss, hfail]

theorem createIntent_miss_remote (f : Int → String → String → Option Response)
    (k : String) (a : Int) (cur : String) (db : DB) (pi : Response) (hpos : 0 < a)
    (hmiss : lookupIdem k endpointPI db = none) (hrem : f a cur k = some pi) :
    createIntent f ⟨some k, some a, cur⟩ db =
      (match insertIdemKey k endpointPI ⟨pi.id, pi.client_secret, pi.status⟩
          (insertPIIfAbsent pi.id a cur pi.status db) with
       | .error _ => (.serverError, insertPIIfAbsent pi.id a cur pi.status db, 1)
       | .ok db2 => (.ok ⟨pi.id, pi.client_secret, pi.status⟩, db2, 1)) := by
  unfold createIntent
  dsimp only
  rw [if_neg (by omega : ¬ a ≤ 0), hmiss, hrem]

theorem createIntent_ok_cache (f : Int → String → String → Option Response)
    (k : String) (a : Int) (cur : String) (db : DB) (r : Response) (hpos : 0 < a)
    (hfirst : (createIntent f ⟨some k, some a, cur⟩ db).1 = .ok r) :
    lookupIdem k endpointPI ((createIntent f ⟨some k, some a, cur⟩ db).2.1) = some r ∧
    (createIntent f ⟨some k, some a, cur⟩ db).2.2 ≤ 1 ∧
    ((createIntent f ⟨some k, some a, cur⟩ db).2.1).paymentIntents.length ≤
      db.paymentIntents.length + 1 := by
  cases hl : lookupIdem k endpointPI db with
  | some r0 =>
    rw [createIntent_hit f k a cur db r0 hpos hl] at hfirst ⊢
    dsimp only at hfirst ⊢
    injection hfirst with hr
    subst hr
    exact ⟨hl, by omega, by omega⟩
  | none =>
    cases hfc : f a cur k with
    | none =>
      rw [createIntent_miss_fail f k a cur db hpos hl hfc] at hfirst
      exact absurd hfirst (by simp)
    | some pi =>
      rw [createIntent_miss_remote f k a cur db pi hpos hl hfc] at hfirst ⊢
      cases hins : insertIdemKey k endpointPI ⟨pi.id, pi.client_secret, pi.status⟩
          (insertPIIfAbsent pi.id a cur pi.status db) with
      | error e =>
        rw [hins] at hfirst
        dsimp only at hfirst
        exact absurd hfirst (by simp)
      | ok db2 =>
        rw [hins] at hfirst
        try dsimp only at hfirst
        try dsimp only
        injection hfirst with hr
        subst hr
        refine ⟨insertIdemKey_ok_lookup hins, by omega, ?_⟩
        obtain ⟨hshape, _⟩ := insertIdemKey_ok_shape hins
        subst hshape
        simpa using insertPIIfAbsent_length pi.id a cur pi.status db

theorem find?_append_some {α : Type} (p : α → Bool) {l1 : List α} (l2 : List α) {x : α}
    (h : l1.find? p = some x) : (l1 ++ l2).find? p = some x := by
  rw [List.find?_append, h]
  rfl

theorem upsertPI_webhookEvents (pid : String) (a : Int) (c : String) (db : DB) :
    (upsertPaymentIntentSucceeded pid a c db).webhookEvents = db.webhookEvents := by
  unfold upsertPaymentIntentSucceeded
  split <;> rfl

theorem insertAccount_webhookEvents (id name ty : String) (db : DB) :
    (insertAccountIfAbsent id name ty db).webhookEvents = db.webhookEvents := by
  unfold insertAccountIfAbsent
  split <;> rfl

theorem insertAccount_paymentIntents (id name ty : String) (db : DB) :
    (insertAccountIfAbsent id name ty db).paymentIntents = db.paymentIntents := by
  unfold insertAccountIfAbsent
  split <;> rfl

theorem insertAccount_self (id name ty : String) (db : DB) :
    accountExists id (insertAccountIfAbsent id name ty db) = true := by
  unfold insertAccountIfAbsent
  split
  · rename_i h
    exact h
  · unfold accountExists
    simp [List.any_append]

theorem accountExists_congr {db db' : DB} (h : db'.accounts = db.accounts) (x : String) :
    accountExists x db' = accountExists x db := by
  unfold accountExists
  rw [h]

theorem webhookEventExists_congr {db db' : DB} (h : db'.webhookEvents = db.webhookEvents)
    (x : String) : webhookEventExists x db' = webhookEventExists x db := by
  unfold webhookEventExists
  rw [h]

theorem selectEscrow_insert_found (id name ty : String) (db : DB) {eid : String}
    (h : selectEscrowId db = some eid) :
    selectEscrowId (insertAccountIfAbsent id name ty db) = some eid := by
  unfold insertAccountIfAbsent
  split
  · exact h
  · unfold selectEscrowId at h ⊢
    dsimp only
    cases hf : db.accounts.find? (fun a => a.type == "platform_escrow") with
    | none =>
      rw [hf] at h
      exact Option.noConfusion h
    | some acct =>
      rw [hf] at h
      rw [find?_append_some _ _ hf]
      exact h

theorem selectEscrow_exists {db : DB} {eid : String}
    (h : selectEscrowId db = some eid) : accountExists eid db = true := by
  unfold selectEscrowId at h
  cases hf : db.accounts.find? (fun a => a.type == "platform_escrow") with
  | none =>
    rw [hf] at h
    exact Option.noConfusion h
  | some acct =>
    rw [hf] at h
    have h' : acct.id = eid := by simpa using h
    unfold accountExists
    refine List.any_eq_true.mpr ⟨acct, List.mem_of_find?_eq_some hf, ?_⟩
    simp [h']

theorem find?_map_update (l : List PaymentIntentRow) (pid : String)
    (h : l.any (fun r => r.provider_id == pid) = true) :
    ((l.map (fun r => if r.provider_id == pid then { r with status := "succeeded" }
        else r)).find? (fun r => r.provider_id == pid)).map (fun r => r.status) =
      some "succeeded" := by
  induction l with
  | nil => simp at h
  | cons x t ih =>
    by_cases hx : (x.provider_id == pid) = true
    · simp only [List.map_cons]
      rw [List.find?_cons_of_pos]
      · simp [hx]
      · simp [hx]
    · simp only [List.map_cons]
      rw [List.find?_cons_of_neg]
      · apply ih
        simpa [hx] using h
      · simp [hx]

theorem piStatus_upsert (pid : String) (a : Int) (c : String) (db : DB) :
    piStatus pid (upsertPaymentIntentSucceeded pid a c db) = some "succeeded" := by
  unfold piStatus upsertPaymentIntentSucceeded
  split
  · rename_i hex
    exact find?_map_update db.paymentIntents pid hex
  · rename_i hex
    have hnone : db.paymentIntents.find? (fun r => r.provider_id == pid) = none := by
      rw [List.find?_eq_none]
      intro x hx hpx
      exact hex (List.any_eq_true.mpr ⟨x, hx, hpx⟩)
    dsimp only
    rw [List.find?_append, hnone]
    simp

theorem txnStep_eq {pi : PIObj} {freshId escrowId : String} {db : DB}
    (hesc : selectEscrowId db = some escrowId)
    (hpos : 0 < pi.amount_received)
    (hd : accountExists freshId db = true)
    (hc : accountExists escrowId db = true) :
    txnStep pi freshId db = .ok { db with transactions := db.transactions ++
      [⟨freshId, escrowId, pi.amount_received, pi.currency, pi.id⟩] } := by
  unfold txnStep
  rw [hesc]
  unfold post_transaction
  dsimp only
  rw [if_neg (by omega : ¬ pi.amount_received ≤ 0), if_pos (by rw [hd, hc]; rfl)]

theorem markStep_eq {eid ty ph : String} {db : DB}
    (h : webhookEventExists eid db = false) :
    insertWebhookEvent eid ty ph db =
      .ok { db with webhookEvents := db.webhookEvents ++ [⟨eid, ty, ph⟩] } := by
  unfold insertWebhookEvent
  rw [if_neg (by simp [h])]

theorem piStatus_congr {db db' : DB} (h : db'.paymentIntents = db.paymentIntents)
    (x : String) : piStatus x db' = piStatus x db := by
  unfold piStatus
  rw [h]

/-! ## Claims -/

/-- C5: for every webhook delivery whose verified payload carries an
event id already recorded as processed, ingest returns Ack with
deduped = true immediately and the store is completely unchanged (no
mirror update, no account, no transaction, no new processed-event
record). -/
theorem dedup_gate_frame (verify : String → String → Option Event)
    (sha256 : String → String) (freshId payload sig : String) (ev : Event) (db : DB)
    (hv : verify payload sig = some ev)
    (hp : webhookEventExists ev.id db = true) :
    ingest verify sha256 freshId payload sig db = (.ok ⟨true, true⟩, db) := by
  unfold ingest
  rw [hv]
  simp [hp]

/-- Witness for C5 at a concrete store that already recorded evt_1. -/
theorem dedup_gate_frame_witness :
    ingest verifyX hashId "cust_1" "payload" "sig" dbProcessed =
      (.ok ⟨true, true⟩, dbProcessed) :=
  dedup_gate_frame verifyX hashId "cust_1" "payload" "sig" evX dbProcessed rfl (by decide)

/-- C6: a webhook request whose signature does not verify is rejected
with the signature error and the store is completely unchanged: no
processed-event record and no transaction. -/
theorem invalid_signature_frame (verify : String → String → Option Event)
    (sha256 : String → String) (freshId payload sig : String) (db : DB)
    (hv : verify payload sig = none) :
    ingest verify sha256 freshId payload sig db = (.error .invalidSignature, db) := by
  unfold ingest
  rw [hv]

/-- Witness for C6 with a rejecting verifier. -/
theorem invalid_signature_frame_witness :
    ingest verifyNone hashId "cust_1" "payload" "sig" dbEscrow =
      (.error .invalidSignature, dbEscrow) :=
  invalid_signature_frame verifyNone hashId "cust_1" "payload" "sig" dbEscrow rfl

/-- C7: create-intent validation: a request without an Idempotency-Key
fails with the missing-key error, and a request whose amount is absent,
non-integral, or not positive fails with the invalid-amount error; in all
cases the store is unchanged and no remote call is made. -/
theorem create_intent_validation (f : Int → String → String → Option Response)
    (a : Option Int) (k cur : String) (db : DB) :
    createIntent f ⟨none, a, cur⟩ db = (.missingKey, db, 0) ∧
    createIntent f ⟨some k, none, cur⟩ db = (.invalidAmount, db, 0) ∧
    (∀ v : Int, v ≤ 0 → createIntent f ⟨some k, some v, cur⟩ db = (.invalidAmount, db, 0)) := by
  refine ⟨rfl, rfl, ?_⟩
  intro v hv
  unfold createIntent
  dsimp only
  rw [if_pos hv]

/-- Witness for C7 at concrete invalid requests. -/
theorem create_intent_validation_witness :
    createIntent stripeOk ⟨none, some 5, "usd"⟩ emptyDB = (.missingKey, emptyDB, 0) ∧
    createIntent stripeOk ⟨some "k1", none, "usd"⟩ emptyDB = (.invalidAmount, emptyDB, 0) ∧
    createIntent stripeOk ⟨some "k1", some 0, "usd"⟩ emptyDB = (.invalidAmount, emptyDB, 0) :=
  ⟨(create_intent_validation stripeOk (some 5) "k1" "usd" emptyDB).1,
   (create_intent_validation stripeOk (some 5) "k1" "usd" emptyDB).2.1,
   (create_intent_validation stripeOk (some 5) "k1" "usd" emptyDB).2.2 0 (by decide)⟩

/-- C8: when the remote create call fails on a cache miss, the handler
surfaces the processor error and the store is completely unchanged (the
mirror insert and the cache store never ran), so the same key can be
retried. -/
theorem remote_failure_no_state_change (f : Int → String → String → Option Response)
    (k : String) (a : Int) (cur : String) (db : DB) (hpos : 0 < a)
    (hmiss : lookupIdem k endpointPI db = none)
    (hfail : f a cur k = none) :
    createIntent f ⟨some k, some a, cur⟩ db = (.serverError, db, 1) :=
  createIntent_miss_fail f k a cur db hpos hmiss hfail

/-- Witness for C8 with a failing remote processor. -/
theorem remote_failure_no_state_change_witness :
    createIntent stripeFail ⟨some "k1", some 2500, "usd"⟩ emptyDB =
      (.serverError, emptyDB, 1) :=
  remote_failure_no_state_change stripeFail "k1" 2500 "usd" emptyDB (by decide) rfl rfl

/-- C10: the cache-hit path never inspects the request body: whenever the
key already has a stored response, any valid amount and currency in the
new request yield exactly the stored response with no remote call, no
store change, and no Conflict. -/
theorem cache_hit_ignores_body (f : Int → String → String → Option Response)
    (k : String) (a : Int) (cur : String) (db : DB) (r : Response)
    (hpos : 0 < a) (hhit : lookupIdem k endpointPI db = some r) :
    createIntent f ⟨some k, some a, cur⟩ db = (.ok r, db, 0) :=
  createIntent_hit f k a cur db r hpos hhit

/-- Witness for C10: the cached response (stored for amount 2500 usd) is
returned unchanged for a retry carrying amount 999 eur. -/
theorem cache_hit_ignores_body_witness :
    createIntent stripeOk ⟨some "k1", some 999, "eur"⟩ dbStoredA =
      (.ok respA, dbStoredA, 0) :=
  cache_hit_ignores_body stripeOk "k1" 999 "eur" dbStoredA respA (by decide) (by decide)

/-- C2 (counterexample): storing the identical response a second time
does not succeed silently — the store is a plain INSERT against the
key+operation uniqueness constraint, so it fails with Conflict even for
an identical payload. -/
theorem idem_store_identical_conflicts :
    insertIdemKey "k1" endpointPI respA emptyDB = .ok dbStoredA ∧
    insertIdemKey "k1" endpointPI respA dbStoredA = .error .conflict := by
  constructor
  · rfl
  · rfl

/-- C2 (amended): storing any response — identical or different — under a
(key, operation) pair that already holds a stored response fails with
Conflict, and a successful store is returned verbatim by later lookups. -/
theorem idem_store_semantics (k : String) (r r' : Response) (db : DB) :
    (∀ r0, lookupIdem k endpointPI db = some r0 →
      insertIdemKey k endpointPI r' db = .error .conflict) ∧
    (∀ db', insertIdemKey k endpointPI r db = .ok db' →
      lookupIdem k endpointPI db' = some r) := by
  constructor
  · intro r0 h
    unfold insertIdemKey
    rw [if_pos (lookup_some_any h)]
  · intro db' h
    exact insertIdemKey_ok_lookup h

/-- Witness for C2's amended statement: a different response conflicts
with the stored one, and the stored one is returned by lookup. -/
theorem idem_store_semantics_witness :
    insertIdemKey "k1" endpointPI ⟨"pi_Y", "secret_Y", "succeeded"⟩ dbStoredA =
      .error .conflict ∧
    lookupIdem "k1" endpointPI dbStoredA = some respA :=
  ⟨(idem_store_semantics "k1" respA ⟨"pi_Y", "secret_Y", "succeeded"⟩ dbStoredA).1
      respA (by decide),
   (idem_store_semantics "k1" respA respA emptyDB).2 dbStoredA rfl⟩

/-- C3: create-intent is idempotent in the client key: once a call has
returned a response, repeating the call with the same key returns the
stored response verbatim from the cache, makes no further remote call
(so at most one remote call across both calls), leaves the store
untouched, and at most one mirror row was created. -/
theorem create_intent_key_idempotent (f : Int → String → String → Option Response)
    (k : String) (a : Int) (cur : String) (db : DB) (r : Response)
    (hpos : 0 < a)
    (hfirst : (createIntent f ⟨some k, some a, cur⟩ db).1 = .ok r) :
    createIntent f ⟨some k, some a, cur⟩ ((createIntent f ⟨some k, some a, cur⟩ db).2.1) =
      (.ok r, (createIntent f ⟨some k, some a, cur⟩ db).2.1, 0) ∧
    (createIntent f ⟨some k, some a, cur⟩ db).2.2 ≤ 1 ∧
    ((createIntent f ⟨some k, some a, cur⟩ db).2.1).paymentIntents.length ≤
      db.paymentIntents.length + 1 := by
  obtain ⟨hcache, hcalls, hrows⟩ := createIntent_ok_cache f k a cur db r hpos hfirst
  exact ⟨createIntent_hit f k a cur _ r hpos hcache, hcalls, hrows⟩

/-- Witness for C3: the second identical call returns the first call's
response with no remote call. -/
theorem create_intent_key_idempotent_witness :
    createIntent stripeOk ⟨some "k1", some 2500, "usd"⟩
        ((createIntent stripeOk ⟨some "k1", some 2500, "usd"⟩ emptyDB).2.1) =
      (.ok respA, (createIntent stripeOk ⟨some "k1", some 2500, "usd"⟩ emptyDB).2.1, 0) ∧
    (createIntent stripeOk ⟨some "k1", some 2500, "usd"⟩ emptyDB).2.2 ≤ 1 ∧
    ((createIntent stripeOk ⟨some "k1", some 2500, "usd"⟩ emptyDB).2.1).paymentIntents.length ≤
      emptyDB.paymentIntents.length + 1 :=
  create_intent_key_idempotent stripeOk "k1" 2500 "usd" emptyDB respA (by decide) rfl

/-- C4: the Ledger Store contract: post_transaction fails with
InvalidAmount when the amount is not positive, fails with UnknownAccount
when (for a positive amount) either referenced account is absent, and
consequently every transaction in any reachable at-rest store state has a
strictly positive amount and debit and credit accounts that exist. -/
theorem ledger_transaction_invariant :
    (∀ db, Reachable db → LedgerInvariant db) ∧
    (∀ (d c : String) (a : Int) (cur ref : String) (db : DB), a ≤ 0 →
      post_transaction d c a cur ref db = .error .invalidAmount) ∧
    (∀ (d c : String) (a : Int) (cur ref : String) (db : DB), 0 < a →
      accountExists d db = false ∨ accountExists c db = false →
      post_transaction d c a cur ref db = .error .unknownAccount) := by
  refine ⟨reachable_invariant, ?_, ?_⟩
  · intro d c a cur ref db ha
    unfold post_transaction
    rw [if_pos ha]
  · intro d c a cur ref db ha habs
    have hcond : ¬ (accountExists d db && accountExists c db) = true := by
      rcases habs with h | h <;> simp [h]
    unfold post_transaction
    rw [if_neg (by omega : ¬ a ≤ 0), if_neg hcond]

/-- Witness for C4: a store reached by seeding escrow and ingesting a
succeeded event satisfies the invariant, and both failure cases fire at
concrete inputs. -/
theorem ledger_transaction_invariant_witness :
    LedgerInvariant ((ingest verifyX hashId "cust_1" "payload" "sig"
      (insertAccountIfAbsent "acct_escrow" "Escrow" "platform_escrow" emptyDB)).2) ∧
    post_transaction "a1" "a2" 0 "usd" "r" emptyDB = .error .invalidAmount ∧
    post_transaction "a1" "a2" 5 "usd" "r" dbEscrow = .error .unknownAccount :=
  ⟨ledger_transaction_invariant.1 _
      (Reachable.webhook verifyX hashId "cust_1" "payload" "sig" _
        (Reachable.ensure "acct_escrow" "Escrow" "platform_escrow" emptyDB Reachable.empty)),
   ledger_transaction_invariant.2.1 "a1" "a2" 0 "usd" "r" emptyDB (by decide),
   ledger_transaction_invariant.2.2 "a1" "a2" 5 "usd" "r" dbEscrow (by decide)
     (Or.inl (by decide))⟩

/-- C9 (counterexample): with no platform-escrow account on file, a
first-seen payment-succeeded event does not get its escrow account lazily
created: the handler fails, posts no Transaction, records no processed
event, and still has no escrow account afterward (while the mirror upsert
and the minted customer account were already committed separately). -/
theorem succeeded_escrow_not_created :
    (ingest verifyX hashId "cust_1" "payload" "sig" emptyDB).1 = .error .unknownAccount ∧
    ((ingest verifyX hashId "cust_1" "payload" "sig" emptyDB).2).transactions = [] ∧
    selectEscrowId ((ingest verifyX hashId "cust_1" "payload" "sig" emptyDB).2) = none ∧
    ((ingest verifyX hashId "cust_1" "payload" "sig" emptyDB).2).webhookEvents = [] := by
  refine ⟨rfl, rfl, rfl, rfl⟩

/-- C1 (code evaluated at the failing input): the dedup check, the ledger
posting, and the processed-event recording are separate commits with no
enclosing store transaction, so the state with the transaction posted but
the event unrecorded is durably reachable (a first delivery dying after
its third query); redelivering the same verified event from that state
posts a second ledger transaction — two posted Transactions and one
ProcessedEvent record for one event id, not exactly one of each. -/
theorem webhook_dedup_not_atomic :
    (ingestCrash verifyX hashId "cust_1" "payload" "sig" 3 dbEscrow).transactions.length
      = 1 ∧
    (ingestCrash verifyX hashId "cust_1" "payload" "sig" 3 dbEscrow).webhookEvents.length
      = 0 ∧
    (ingest verifyX hashId "cust_2" "payload" "sig"
      (ingestCrash verifyX hashId "cust_1" "payload" "sig" 3 dbEscrow)).1
      = .ok ⟨true, false⟩ ∧
    ((ingest verifyX hashId "cust_2" "payload" "sig"
      (ingestCrash verifyX hashId "cust_1" "payload" "sig" 3 dbEscrow)).2).transactions.length
      = 2 ∧
    ((ingest verifyX hashId "cust_2" "payload" "sig"
      (ingestCrash verifyX hashId "cust_1" "payload" "sig" 3 dbEscrow)).2).webhookEvents.length
      = 1 := by
  refine ⟨rfl, rfl, rfl, rfl, rfl⟩

/-- C9 (amended): provided a platform-escrow account already exists (it is
only resolved, never lazily created) and the reported amount is positive
(as the ledger contract requires), a first-seen payment-succeeded event
acknowledges without dedup, upserts the mirror's status to succeeded,
lazily creates the counterparty account, posts exactly one Transaction
debiting the counterparty and crediting escrow for the reported amount
with external reference the processor payment reference, and records the
event as processed. -/
theorem succeeded_first_seen (verify : String → String → Option Event)
    (sha256 : String → String) (freshId payload sig : String) (ev : Event)
    (db : DB) (escrowId : String)
    (hv : verify payload sig = some ev)
    (ht : ev.type = "payment_intent.succeeded")
    (hd : webhookEventExists ev.id db = false)
    (hesc : selectEscrowId db = some escrowId)
    (hpos : 0 < ev.data.amount_received) :
    (ingest verify sha256 freshId payload sig db).1 = .ok ⟨true, false⟩ ∧
    ((ingest verify sha256 freshId payload sig db).2).transactions =
      db.transactions ++
        [⟨freshId, escrowId, ev.data.amount_received, ev.data.currency, ev.data.id⟩] ∧
    accountExists freshId ((ingest verify sha256 freshId payload sig db).2) = true ∧
    piStatus ev.data.id ((ingest verify sha256 freshId payload sig db).2) =
      some "succeeded" ∧
    webhookEventExists ev.id ((ingest verify sha256 freshId payload sig db).2) = true := by
  set db1 := upsertPaymentIntentSucceeded ev.data.id ev.data.amount_received
    ev.data.currency db with hdb1
  set mid := insertAccountIfAbsent freshId ("Customer " ++ ev.data.customer.getD "anon")
    "customer" db1 with hmid
  have hescMid : selectEscrowId mid = some escrowId := by
    rw [hmid]
    apply selectEscrow_insert_found
    rw [hdb1]
    unfold selectEscrowId
    rw [upsertPI_accounts]
    exact hesc
  have hdMid : accountExists freshId mid = true := by
    rw [hmid]
    exact insertAccount_self _ _ _ _
  have hcMid : accountExists escrowId mid = true := by
    rw [hmid]
    refine insertAccount_mono _ _ _ _ escrowId ?_
    rw [hdb1, accountExists_congr (upsertPI_accounts _ _ _ db) escrowId]
    exact selectEscrow_exists hesc
  have hweMid : webhookEventExists ev.id mid = false := by
    rw [hmid, webhookEventExists_congr (insertAccount_webhookEvents _ _ _ db1) ev.id,
      hdb1, webhookEventExists_congr (upsertPI_webhookEvents _ _ _ db) ev.id]
    exact hd
  have hwePosted : webhookEventExists ev.id ({ mid with transactions :=
      mid.transactions ++ [⟨freshId, escrowId, ev.data.amount_received,
        ev.data.currency, ev.data.id⟩] }) = false := hweMid
  have hsteps : eventSteps ev freshId (sha256 payload) =
      succeededSteps ev.data freshId ++
        [insertWebhookEvent ev.id ev.type (sha256 payload)] := by
    unfold eventSteps
    have hta : (ev.type == "payment_intent.succeeded") = true := by simp [ht]
    rw [hta]
    rfl
  have hrun : runSteps (eventSteps ev freshId (sha256 payload)) db =
      (.ok (), { mid with
        transactions := mid.transactions ++
          [⟨freshId, escrowId, ev.data.amount_received, ev.data.currency, ev.data.id⟩],
        webhookEvents := mid.webhookEvents ++ [⟨ev.id, ev.type, sha256 payload⟩] }) := by
    rw [hsteps]
    unfold succeededSteps
    simp only [runSteps, List.cons_append, List.nil_append]
    rw [← hdb1, ← hmid, txnStep_eq hescMid hpos hdMid hcMid]
    dsimp only
    rw [markStep_eq hwePosted]
  have hmain : ingest verify sha256 freshId payload sig db =
      (.ok ⟨true, false⟩, { mid with
        transactions := mid.transactions ++
          [⟨freshId, escrowId, ev.data.amount_received, ev.data.currency, ev.data.id⟩],
        webhookEvents := mid.webhookEvents ++ [⟨ev.id, ev.type, sha256 payload⟩] }) := by
    unfold ingest
    rw [hv]
    dsimp only
    rw [if_neg (by simp [hd] : ¬ webhookEventExists ev.id db = true), hrun]
  rw [hmain]
  dsimp only
  refine ⟨rfl, ?_, ?_, ?_, ?_⟩
  · rw [hmid, insertAccount_transactions, hdb1, upsertPI_transactions]
  · exact hdMid
  · have h4 : piStatus ev.data.id mid = some "succeeded" := by
      rw [hmid, piStatus_congr (insertAccount_paymentIntents _ _ _ db1) ev.data.id, hdb1]
      exact piStatus_upsert _ _ _ db
    exact h4
  · unfold webhookEventExists
    dsimp only
    simp [List.any_append]

/-- Witness for C9's amended statement: ingesting evt_1 into the
escrow-seeded store posts the single expected transaction. -/
theorem succeeded_first_seen_witness :
    (ingest verifyX hashId "cust_1" "payload" "sig" dbEscrow).1 = .ok ⟨true, false⟩ ∧
    ((ingest verifyX hashId "cust_1" "payload" "sig" dbEscrow).2).transactions =
      dbEscrow.transactions ++ [⟨"cust_1", "acct_escrow", 2500, "usd", "pi_X"⟩] ∧
    accountExists "cust_1" ((ingest verifyX hashId "cust_1" "payload" "sig" dbEscrow).2)
      = true ∧
    piStatus "pi_X" ((ingest verifyX hashId "cust_1" "payload" "sig" dbEscrow).2)
      = some "succeeded" ∧
    webhookEventExists "evt_1" ((ingest verifyX hashId "cust_1" "payload" "sig" dbEscrow).2)
      = true :=
  succeeded_first_seen verifyX hashId "cust_1" "payload" "sig" evX dbEscrow "acct_escrow"
    rfl rfl rfl rfl (by decide)

end Ehipay
